import Mathlib

/-!
# Verification of the nope.media asynchronous playback engine

Shallow embedding of the core of `src/async.c` (decoder-side timestamp
fixup, reader loop, packet/sink queues, controller lifecycle) and of the
VideoToolbox hardware-decoder adapter (reorder buffer, buffer-count
governor, packet submission), together with proofs and refutations of the
specified properties.

Machine integers of the source (`int64_t` timestamps, `int` counters) are
modelled as unbounded `Int`; none of the verified properties involves
overflow. Fallible operations return explicit result values; blocking
operations are modelled either by explicit "blocked" results or by
environment lists describing the state changes performed by other threads
between two evaluations of a wait-loop condition.
-/

namespace NopeMedia

/-- `AV_NOPTS_VALUE` (`INT64_MIN`), the sentinel for "no timestamp" and for
the unarmed seek request. -/
def AV_NOPTS_VALUE : Int := -(2 ^ 63)

/-- FFmpeg `AVERROR_EOF` (`FFERRTAG('E','O','F',' ')`). -/
def AVERROR_EOF : Int := -541478725

/-- FFmpeg `AVERROR_EXTERNAL` (`FFERRTAG('E','X','T',' ')`). -/
def AVERROR_EXTERNAL : Int := -542398533

/-- FFmpeg `AVERROR(EAGAIN)` (negated errno, value as on Linux). -/
def AVERROR_EAGAIN : Int := -11

/-- A rational time base (`AVRational`). -/
structure AVRational where
  num : Int
  den : Int
deriving DecidableEq, Repr

/-- The canonical microsecond time base `AV_TIME_BASE_Q` = 1/1000000. -/
def AV_TIME_BASE_Q : AVRational := ⟨1, 1000000⟩

/-- `av_rescale_rnd(a, b, c, AV_ROUND_ZERO)`: `a * b / c` with the division
rounded towards zero, as C integer division does. -/
def av_rescale_rnd_zero (a b c : Int) : Int :=
  Int.tdiv (a * b) c

/-- `av_rescale_q_rnd(a, bq, cq, 0)`: rescale `a` from time base `bq` to
time base `cq`, rounding towards zero (the code passes `rnd = 0`, which is
`AV_ROUND_ZERO`). -/
def av_rescale_q_rnd_zero (a : Int) (bq cq : AVRational) : Int :=
  av_rescale_rnd_zero a (bq.num * cq.den) (cq.num * bq.den)

/-- The fields of an `AVFrame` relevant to the timestamp-fixup logic:
`pts` and the value returned by `av_frame_get_best_effort_timestamp`. -/
structure AVFrame where
  pts : Int
  best_effort_ts : Int
deriving DecidableEq, Repr

/-- `get_best_effort_ts` (src/async.c:225): the best-effort timestamp when
set, the frame's `pts` otherwise. -/
def get_best_effort_ts (f : AVFrame) : Int :=
  if f.best_effort_ts ≠ AV_NOPTS_VALUE then f.best_effort_ts else f.pts

/-- The decoder-side state read and written by `async_queue_frame`
(src/async.c:31): the armed seek request (`AV_NOPTS_VALUE` when unarmed),
the single cached skipped frame `tmp_frame`, and the stream time base used
for rescaling. -/
structure AsyncDecoder where
  seek_request : Int
  tmp_frame : Option AVFrame
  st_timebase : AVRational
deriving DecidableEq, Repr

/-- The canonical (microsecond) timestamp of a frame held by decoder `d`,
as computed at src/async.c:248 and src/async.c:271. -/
def canonical_ts (d : AsyncDecoder) (f : AVFrame) : Int :=
  av_rescale_q_rnd_zero (get_best_effort_ts f) d.st_timebase AV_TIME_BASE_Q

/-- `queue_cached_frame` (src/async.c:246): promote the cached skipped
frame, setting its `pts` to its canonical timestamp, and emit it. Returns
the updated decoder state and the emitted frame. Only called when
`tmp_frame` is present; the caller passes the cached frame `c`. -/
def queue_cached_frame (d : AsyncDecoder) (c : AVFrame) : AsyncDecoder × AVFrame :=
  ({ d with tmp_frame := none }, { c with pts := canonical_ts d c })

/-- `async_queue_frame` (src/async.c:256). The input is the frame delivered
by the decoder capability (`none` models the NULL end-of-stream marker).
The result is the updated decoder state, the list of frames emitted to the
frames queue (in emission order), and the return value. Sends to the
frames queue are modelled as succeeding; the send-error path of
`queue_frame` only propagates a sink-side latch and emits nothing more. -/
def async_queue_frame (d : AsyncDecoder) (frame : Option AVFrame) :
    AsyncDecoder × List AVFrame × Int :=
  match frame with
  | none =>
    match d.tmp_frame with
    | some c =>
      let (d', cached) := queue_cached_frame d c
      (d', [cached], AVERROR_EOF)
    | none => (d, [], AVERROR_EOF)
  | some f =>
    let ts := canonical_ts d f
    if d.seek_request ≠ AV_NOPTS_VALUE ∧ ts < d.seek_request then
      -- drop the previously cached frame, cache this one, do not emit
      ({ d with tmp_frame := some f }, [], 0)
    else
      let f1 := { f with pts := ts }
      match d.tmp_frame with
      | some c =>
        let (d', cached) := queue_cached_frame d c
        ({ d' with seek_request := AV_NOPTS_VALUE }, [cached, f1], 0)
      | none =>
        let f2 :=
          if d.seek_request ≠ AV_NOPTS_VALUE ∧ d.seek_request > 0 ∧
              f1.pts > d.seek_request then
            { f1 with pts := d.seek_request }
          else f1
        ({ d with seek_request := AV_NOPTS_VALUE }, [f2], 0)

/-- Run `async_queue_frame` over a sequence of decoder-capability
deliveries, threading the decoder state and concatenating the emitted
frames in order. This models the stream of frames the decoder worker sends
into the frames queue. -/
def run_async_queue (d : AsyncDecoder) :
    List (Option AVFrame) → AsyncDecoder × List AVFrame
  | [] => (d, [])
  | f :: fs =>
    let (d', out, _) := async_queue_frame d f
    let (d'', rest) := run_async_queue d' fs
    (d'', out ++ rest)

/-- Modelled from the spec: the client get-frame adapter (spec §4.8) is not
under `src/`; only `async.c` and the end-to-end tests are. Per §4.8 and the
§8 invariant `returned.ts ≤ t`, the adapter pulls frames from the sink
until one with ts beyond the query time `t` is observed, keeping the most
recent frame at or before `t`; it delivers that frame, or the last buffered
frame when EOF is observed first, or the overshooting frame when no earlier
frame was ever buffered. `prev` is the cached previous frame. -/
def get_frame_deliver (t : Int) : Option AVFrame → List AVFrame → Option AVFrame
  | prev, [] => prev
  | prev, f :: fs =>
    if f.pts > t then some (prev.getD f)
    else get_frame_deliver t (some f) fs

/-- Modelled from the spec: `get_frame(t)` against the ordered frame
stream that reaches the sink (the filter worker of §4.5 forwards frames
unchanged in our setting). -/
def nmd_get_frame_from_sink (t : Int) (sink : List AVFrame) : Option AVFrame :=
  get_frame_deliver t none sink

/-! ## Reorder buffer of the hardware decode callback (src/unnamed/part_000) -/

/-- The walk of `decode_callback` (src/unnamed/part_000:307) over the tail
of the reorder list, with `w` the node currently pointed at by
`queue_walker`. Each node is identified by its `pts`. Returns the reorder
list from `w` on after insertion of `n`, the list of nodes pushed
downstream (in push order), and the sequence of deltas passed to
`bufcount_update_max` (in call order). A node is pushed exactly when its
successor exists and the new frame's pts is not smaller than that
successor's. -/
def decode_cb_walk (n : Int) (w : Int) : List Int → List Int × List Int × List Int
  | [] => ([w, n], [], [1])
  | x :: xs =>
    if n < x then (w :: n :: x :: xs, [], [1])
    else
      let (q, fl, dl) := decode_cb_walk n x xs
      (q, w :: fl, (-1) :: dl)

/-- The reorder-list update performed by `decode_callback`
(src/unnamed/part_000:293): prepend when the list is empty or the new pts
is smaller than the head's, otherwise walk forward with `decode_cb_walk`.
Returns the new reorder list, the nodes pushed downstream, and the
`bufcount_update_max` deltas. -/
def decode_callback_insert (q : List Int) (n : Int) : List Int × List Int × List Int :=
  match q with
  | [] => ([n], [], [1])
  | w :: ws =>
    if n < w then (n :: w :: ws, [], [1])
    else decode_cb_walk n w ws

/-! ## Buffer-count governor (src/unnamed/part_000) -/

/-- The two counters of `struct bufcount_context` (src/unnamed/part_000:40). -/
structure BufcountState where
  refcount : Int
  refmax : Int
deriving DecidableEq, Repr

/-- The governor invariant claimed by the spec for every point where the
governor's mutex is released. -/
def bufcount_invariant (b : BufcountState) : Prop :=
  0 ≤ b.refcount ∧ b.refcount ≤ b.refmax

instance (b : BufcountState) : Decidable (bufcount_invariant b) :=
  inferInstanceAs (Decidable (_ ∧ _))

/-- `bufcount_create` (src/unnamed/part_000:59): `refcount = 1`,
`refmax = 3 + 1`. -/
def bufcount_create : BufcountState := ⟨1, 3 + 1⟩

/-- `bufcount_update_max` (src/unnamed/part_000:84): add `n` to `refmax`
under the mutex, signal, unlock. No bound is checked. -/
def bufcount_update_max (b : BufcountState) (n : Int) : BufcountState :=
  { b with refmax := b.refmax + n }

/-- The wait loop of `bufcount_update_ref` (src/unnamed/part_000:111):
`while (refcount >= refmax) pthread_cond_wait(...)`. Each entry of `env`
is the pair of deltas `(to refcount, to refmax)` applied by other threads
between a failed condition check and the next wakeup. `none` means the
environment list was exhausted while the condition still held, i.e. the
caller is still blocked. -/
def bufcount_wait_loop (b : BufcountState) :
    List (Int × Int) → Option BufcountState
  | [] => if b.refcount < b.refmax then some b else none
  | e :: es =>
    if b.refcount < b.refmax then some b
    else bufcount_wait_loop ⟨b.refcount + e.1, b.refmax + e.2⟩ es

/-- Outcome of `bufcount_update_ref`: still blocked in the wait loop, the
governor self-destructed because `refcount` reached zero, or completed in
the given state. -/
inductive BufcountOutcome where
  | blocked : BufcountOutcome
  | destroyed : BufcountOutcome
  | done (b : BufcountState) : BufcountOutcome
deriving DecidableEq, Repr

/-- `bufcount_update_ref` (src/unnamed/part_000:96): add `n` to
`refcount`; when `n > 0`, wait while `refcount >= refmax`; destroy the
governor when `refcount` is zero. -/
def bufcount_update_ref (b : BufcountState) (n : Int)
    (env : List (Int × Int)) : BufcountOutcome :=
  let b1 : BufcountState := { b with refcount := b.refcount + n }
  match (if n > 0 then bufcount_wait_loop b1 env else some b1) with
  | none => .blocked
  | some b2 => if b2.refcount = 0 then .destroyed else .done b2

/-! ## Reader worker loop (src/async.c:441) -/

/-- Observable actions of one iteration of the reader loop. -/
inductive RdEvent where
  | evPushSeekMsg (ts : Int) : RdEvent
  | evSeekCb (ts : Int) : RdEvent
  | evPullPacket : RdEvent
  | evSleep : RdEvent
  | evSendPacket : RdEvent
deriving DecidableEq, Repr

/-- How one reader-loop iteration ends: go around the loop again, or
break out of it. -/
inductive RdOutcome where
  | cont : RdOutcome
  | brk : RdOutcome
deriving DecidableEq, Repr

/-- Results of the fallible calls made inside one reader-loop iteration
(src/async.c:473), injected as parameters: the seek request taken under
the mutex, and the return values of `push_seek_message`, the seek
callback, `pull_packet_cb`, `av_memdup` and the packet-queue send. -/
structure RdIterInput where
  request_seek : Int
  push_seek_ret : Int
  seek_cb_ret : Int
  pull_ret : Int
  memdup_ok : Bool
  send_ret : Int
deriving DecidableEq, Repr

/-- The pull-and-send second half of a reader iteration
(src/async.c:505), shared by the seek and no-seek paths. -/
def reader_pull_section (inp : RdIterInput) (evs : List RdEvent) :
    List RdEvent × RdOutcome :=
  let evs := evs ++ [RdEvent.evPullPacket]
  if inp.pull_ret = AVERROR_EAGAIN then (evs ++ [RdEvent.evSleep], .cont)
  else if inp.pull_ret < 0 then (evs, .brk)
  else if ¬ inp.memdup_ok then (evs, .brk)
  else (evs ++ [RdEvent.evSendPacket], if inp.send_ret < 0 then .brk else .cont)

/-- One iteration of the reader loop (src/async.c:473): atomically take
and clear `request_seek`; when a seek is pending, push the seek message
into the packet queue and then invoke the source seek callback; then pull
a packet and forward it. The returned list is the sequence of observable
actions in program order. -/
def reader_iteration (inp : RdIterInput) : List RdEvent × RdOutcome :=
  let seek_to := inp.request_seek
  if seek_to ≥ 0 then
    let evs := [RdEvent.evPushSeekMsg seek_to]
    if inp.push_seek_ret < 0 then (evs, .brk)
    else
      let evs := evs ++ [RdEvent.evSeekCb seek_to]
      if inp.seek_cb_ret < 0 then (evs, .brk)
      else reader_pull_section inp evs
  else reader_pull_section inp []

/-! ## Packet queue contents (src/async.c) -/

/-- A message in the packet queue (`struct message`, src/async.c:83):
either a packet (identified by an id) or a seek marker carrying the
canonical target. -/
inductive PktMsg where
  | msgPacket (id : Nat) : PktMsg
  | msgSeek (ts : Int) : PktMsg
deriving DecidableEq, Repr

/-- Operations applied to the packet queue's contents: the reader sending
a packet (src/async.c:523), the reader pushing a seek message — which
first flushes the queue and then sends the marker (src/async.c:302) — and
the decoder worker receiving the front message (src/async.c:374). -/
inductive PktOp where
  | opSendPacket (id : Nat) : PktOp
  | opPushSeek (ts : Int) : PktOp
  | opRecv : PktOp
deriving DecidableEq, Repr

/-- Effect of one operation on the queue contents. `opPushSeek` is
`av_thread_message_flush` followed by the send of the seek marker; the
consumer cannot observe a state between the two in which a stale seek
survives, since the flush leaves the queue empty. -/
def pkt_apply (q : List PktMsg) : PktOp → List PktMsg
  | .opSendPacket id => q ++ [.msgPacket id]
  | .opPushSeek ts => [.msgSeek ts]
  | .opRecv => q.tail

/-- Queue contents after a sequence of operations, starting empty
(src/async.c:454 allocates the queue empty). -/
def pkt_run (ops : List PktOp) : List PktMsg :=
  ops.foldl pkt_apply []

/-- Number of seek markers in the queue. -/
def seek_count (q : List PktMsg) : Nat :=
  (q.filter fun m => match m with | .msgSeek _ => true | _ => false).length

/-! ## Hardware decoder packet submission (src/unnamed/part_000:471) -/

/-- The `nb_queued` in-flight counter of `struct vtdec_context`
(src/unnamed/part_000:54). -/
structure VtState where
  nb_queued : Int
deriving DecidableEq, Repr

/-- Side effects of one `vtdec_push_packet` call: how many times a sample
was submitted to the decompression session, and how many times the
condition variable was signalled. -/
structure VtEffects where
  submissions : Nat
  signals : Nat
deriving DecidableEq, Repr

/-- `vtdec_push_packet` (src/unnamed/part_000:471), evaluated from the
state in which the entry wait loop (`while (nb_queued >= 3)`) has already
let the caller through. `sample_ok` is whether `sample_buffer_create`
succeeded, `status` the result of
`VTDecompressionSessionDecodeFrame`. Returns the new state, the return
value, and the side effects. On a failed submission the counter is reset
to zero under the mutex and the condition variable signalled; the packet
is not submitted again. -/
def vtdec_push_packet (vt : VtState) (pkt_size : Int) (sample_ok : Bool)
    (status : Int) : VtState × Int × VtEffects :=
  if pkt_size = 0 then (vt, AVERROR_EOF, ⟨0, 0⟩)
  else if ¬ sample_ok then (vt, AVERROR_EXTERNAL, ⟨0, 0⟩)
  else
    -- update_nb_queue(dec_ctx, vt, 1) signals once; then the one submission
    let vt1 : VtState := { vt with nb_queued := vt.nb_queued + 1 }
    if status ≠ 0 then (⟨0⟩, AVERROR_EXTERNAL, ⟨1, 2⟩)
    else (vt1, pkt_size, ⟨1, 1⟩)

/-! ## Async controller lifecycle (src/async.c:557) -/

/-- The controller/reader state touched by `async_start`, `async_stop` and
`async_reader_seek`: the reader's `started` flag and its pending
`request_seek` (`-1` when none). The sink queue's allocation is implied by
`started`. -/
structure AsyncCtx where
  started : Bool
  request_seek : Int
deriving DecidableEq, Repr

/-- `reset_reader` (src/async.c:155). -/
def reset_reader (a : AsyncCtx) : AsyncCtx :=
  { a with started := false, request_seek := -1 }

/-- `async_reader_seek` (src/async.c:143): store the requested timestamp
under the reader's mutex. -/
def async_reader_seek (a : AsyncCtx) (ts : Int) : AsyncCtx × Int :=
  ({ a with request_seek := ts }, 0)

/-- `async_start` (src/async.c:557): a no-op returning 0 when already
started; otherwise allocate the sink queue, arm the initial seek when
`skip` is nonzero, and spawn the reader. -/
def async_start (a : AsyncCtx) (skip : Int) : AsyncCtx × Int :=
  if a.started then (a, 0)
  else
    let a1 := if skip ≠ 0 then (async_reader_seek a skip).1 else a
    ({ a1 with started := true }, 0)

/-- `async_stop` (src/async.c:614): a no-op returning 0 when nothing is
started; otherwise latch EOF on the sink's send side, flush it, and wait
for the workers (`async_wait`, which runs `reset_reader`). -/
def async_stop (a : AsyncCtx) : AsyncCtx × Int :=
  if ¬ a.started then (a, 0)
  else (reset_reader a, 0)

/-- Modelled from the spec: the media-level `get_frame` adapter (spec
§4.8 and §8 scenario 4, "stop is idempotent; re-entry re-seeks") is not
under `src/`. On a stopped media it re-arms the seek and restarts the
pipeline, then pulls from the sink; `source` is the ordered frame stream
the restarted pipeline delivers to the sink. -/
def nmd_get_frame (a : AsyncCtx) (source : List AVFrame) (t : Int) :
    AsyncCtx × Option AVFrame :=
  let a1 := if ¬ a.started then (async_start (async_reader_seek a t).1 0).1 else a
  (a1, nmd_get_frame_from_sink t source)

/-! ## Sink queue error latches and `async_pop_frame` (src/async.c:639) -/

/-- A bounded message queue with its sticky error latches, as used for the
sink queue. Modelled from the spec (§4.1) for the queue abstraction
itself, which lives in libavutil: `err_send` fails senders, `err_recv`
fails receivers once the pending items are drained. -/
structure FrameQueue where
  items : List AVFrame
  cap : Nat
  err_send : Option Int
  err_recv : Option Int
deriving DecidableEq, Repr

/-- Result of a blocking receive on the queue. -/
inductive RecvResult where
  | rblocked : RecvResult
  | rerr (e : Int) : RecvResult
  | rok (f : AVFrame) (q : FrameQueue) : RecvResult
deriving DecidableEq, Repr

/-- `av_thread_message_queue_recv`: deliver a pending item if any; fail
with the latched receive error when the queue is empty; block otherwise. -/
def queue_recv (q : FrameQueue) : RecvResult :=
  match q.items with
  | f :: rest => .rok f { q with items := rest }
  | [] =>
    match q.err_recv with
    | some e => .rerr e
    | none => .rblocked

/-- Result of a blocking send on the queue. -/
inductive SendResult where
  | sblocked : SendResult
  | serr (e : Int) : SendResult
  | sok (q : FrameQueue) : SendResult
deriving DecidableEq, Repr

/-- `av_thread_message_queue_send`: fail immediately once the send-side
latch is set; block while the queue is full; append otherwise. -/
def queue_send (q : FrameQueue) (f : AVFrame) : SendResult :=
  match q.err_send with
  | some e => .serr e
  | none =>
    if q.items.length ≥ q.cap then .sblocked
    else .sok { q with items := q.items ++ [f] }

/-- `av_thread_message_queue_set_err_send`: install the sticky send-side
latch. -/
def queue_set_err_send (q : FrameQueue) (e : Int) : FrameQueue :=
  { q with err_send := some e }

/-- `async_pop_frame` (src/async.c:639): blocking receive from the sink;
on any receive error, install that error as the sink's send-side latch
and return NULL. `none` models the call still being blocked inside the
receive. -/
def async_pop_frame (q : FrameQueue) : Option (Option AVFrame × FrameQueue) :=
  match queue_recv q with
  | .rok f q' => some (some f, q')
  | .rerr e => some (none, queue_set_err_send q e)
  | .rblocked => none

/-! ## Concrete scenarios -/

/-- A stream time base of one microsecond, under which the canonical
rescale is the identity on sane values. -/
def microsecond_tb : AVRational := ⟨1, 1000000⟩

/-- The frames delivered by the decoder capability after a seek to 5.0 s
on a source whose only keyframe is at t = 0: the demuxer seeks back to the
keyframe, so decoding restarts at t = 0 and the frames before the target
arrive first; decoding ends with the NULL end-of-stream marker. Timestamps
are microseconds: 0 s, 3 s, 4.8 s, 5.3 s. -/
def one_keyframe_inputs : List (Option AVFrame) :=
  [some ⟨0, 0⟩, some ⟨3000000, 3000000⟩, some ⟨4800000, 4800000⟩,
    some ⟨5300000, 5300000⟩, none]

/-- The frame stream reaching the sink in the one-keyframe scenario, with
the seek to 5.0 s armed. -/
def one_keyframe_sink : List AVFrame :=
  (run_async_queue ⟨5000000, none, microsecond_tb⟩ one_keyframe_inputs).2

/-- Frames arriving after a seek to 10 s: one frame below the target
(5 s), then one above it (12 s). -/
def post_seek_inputs : List (Option AVFrame) :=
  [some ⟨5000000, 5000000⟩, some ⟨12000000, 12000000⟩]

/-- The frames emitted to the frames queue in that scenario. -/
def post_seek_emitted : List AVFrame :=
  (run_async_queue ⟨10000000, none, microsecond_tb⟩ post_seek_inputs).2

/-- The maximal prefix of the reorder list that the `decode_callback` walk
traverses: the nodes whose pts is not greater than the new frame's. All of
it except its last element is flushed downstream. -/
def front_at_or_below (n : Int) (q : List Int) : List Int :=
  q.takeWhile fun x => !decide (n < x)

/-! ## Theorems -/

/-- A positive seek target is never the unarmed sentinel. -/
lemma ne_nopts_of_pos {s : Int} (hs : 0 < s) : s ≠ AV_NOPTS_VALUE := by
  intro h
  rw [h] at hs
  exact absurd hs (by decide)

/--
C2: in `async_queue_frame`, a non-null frame arriving while a seek is
armed whose canonical ts is strictly below `seek_request` replaces the
cached skipped-frame (freeing any previous one), nothing is emitted, and
the call returns 0; at most one "last frame before the seek target" is
ever retained, since the cache is a single slot.
-/
theorem async_queue_frame_skip_caches (d : AsyncDecoder) (f : AVFrame)
    (harm : d.seek_request ≠ AV_NOPTS_VALUE)
    (hlt : canonical_ts d f < d.seek_request) :
    async_queue_frame d (some f) = ({ d with tmp_frame := some f }, [], 0) := by
  simp [async_queue_frame, harm, hlt]

/-- Witness for `async_queue_frame_skip_caches`: a frame at 50 µs arriving
while a seek to 100 µs is armed is cached and not emitted. -/
theorem async_queue_frame_skip_caches_witness :
    async_queue_frame ⟨100, none, ⟨1, 1000000⟩⟩ (some ⟨50, 50⟩) =
      (⟨100, some ⟨50, 50⟩, ⟨1, 1000000⟩⟩, [], 0) :=
  async_queue_frame_skip_caches ⟨100, none, ⟨1, 1000000⟩⟩ ⟨50, 50⟩
    (by decide) (by decide)

/--
C1 (counterexample): the claimed consequence fails. On a source whose only
keyframe is at t = 0, the frames arriving after `seek(5.0)` start below
the target, so a cached skipped-frame exists when the first at-or-after
frame arrives; `async_queue_frame` then emits the cached frame with its
own (un-clamped) canonical ts rather than taking the clamp branch, and
`get_frame(5.1)` delivers that frame: its ts is 4.8 s, not the claimed
5.0 s.
-/
theorem async_queue_frame_clamp_counterexample :
    Option.map AVFrame.pts (nmd_get_frame_from_sink 5100000 one_keyframe_sink) =
      some 4800000 ∧ (4800000 : Int) ≠ 5000000 := by
  constructor
  · decide
  · decide

/--
C1 (amended): in `async_queue_frame`, for every non-null frame arriving
while a seek is armed, with no cached skipped-frame present, with
`seek_request > 0`, and with canonical ts strictly greater than
`seek_request`, the frame's ts is clamped down to `seek_request`, the
seek-arm is cleared and the frame is emitted; however, on a source whose
only keyframe is at t = 0, frames below the target are cached and the
cached frame is re-emitted with its own timestamp, so `seek(5.0)` followed
by `get_frame(5.1)` returns the last frame at or before the query time
(4.8 s in the scenario), not necessarily one with ts == 5.0.
-/
theorem async_queue_frame_clamp_down :
    (∀ (d : AsyncDecoder) (f : AVFrame),
      d.seek_request ≠ AV_NOPTS_VALUE → d.tmp_frame = none →
      0 < d.seek_request → d.seek_request < canonical_ts d f →
      async_queue_frame d (some f) =
        ({ d with seek_request := AV_NOPTS_VALUE },
          [{ f with pts := d.seek_request }], 0)) ∧
    Option.map AVFrame.pts (nmd_get_frame_from_sink 5100000 one_keyframe_sink) =
      some 4800000 := by
  constructor
  · intro d f harm hnone hpos hover
    have hnlt : ¬ canonical_ts d f < d.seek_request := not_lt.mpr hover.le
    simp [async_queue_frame, harm, hnone, hnlt, hpos, hover]
  · decide

/-- Witness for `async_queue_frame_clamp_down`: with a seek to 5.0 s armed
and no cached frame, a frame at 5.3 s is emitted clamped to 5.0 s and the
seek-arm is cleared. -/
theorem async_queue_frame_clamp_down_witness :
    async_queue_frame ⟨5000000, none, ⟨1, 1000000⟩⟩ (some ⟨5300000, 5300000⟩) =
      (⟨AV_NOPTS_VALUE, none, ⟨1, 1000000⟩⟩, [⟨5000000, 5300000⟩], 0) :=
  async_queue_frame_clamp_down.1 ⟨5000000, none, ⟨1, 1000000⟩⟩ ⟨5300000, 5300000⟩
    (by decide) rfl (by decide) (by decide)

/--
C3 (counterexample): inserting a frame with pts 2 into the reorder list
`[1]` is a non-prepend insertion (¬ 2 < 1); the node with pts 1 has ts
strictly less than the new frame's, yet nothing is flushed downstream —
the walk flushes a node only when a successor with pts ≤ the new pts
exists after it.
-/
theorem decode_callback_flush_counterexample :
    ¬ (2 : Int) < 1 ∧ (1 : Int) ∈ [(1 : Int)] ∧ (1 : Int) < 2 ∧
      (decode_callback_insert [1] 2).2.1 = [] ∧
      ¬ (1 : Int) ∈ (decode_callback_insert [1] 2).2.1 := by
  decide

/-- The walk of `decode_cb_walk` flushes every traversed node except the
last one at or below the new pts, inserts the new frame right after that
node, and issues one `adjust_max(-1)` per flushed node followed by a
single `adjust_max(+1)`. -/
lemma decode_cb_walk_spec (n : Int) :
    ∀ (ws : List Int) (w : Int), ¬ n < w →
      decode_cb_walk n w ws =
        ((front_at_or_below n (w :: ws)).getLastD 0 :: n ::
            (w :: ws).drop (front_at_or_below n (w :: ws)).length,
          (front_at_or_below n (w :: ws)).dropLast,
          List.replicate ((front_at_or_below n (w :: ws)).length - 1) (-1) ++ [1]) := by
  intro ws
  induction ws with
  | nil =>
    intro w hw
    simp [decode_cb_walk, front_at_or_below, hw]
  | cons x xs ih =>
    intro w hw
    by_cases hx : n < x
    · simp [decode_cb_walk, front_at_or_below, hw, hx]
    · have hrec := ih x hx
      have hfp : front_at_or_below n (x :: xs) = x :: xs.takeWhile fun y => !decide (n < y) := by
        simp [front_at_or_below, hx]
      rw [hfp] at hrec
      simp only [decode_cb_walk, if_neg hx, hrec]
      have hfp2 : front_at_or_below n (w :: x :: xs) =
          w :: x :: xs.takeWhile fun y => !decide (n < y) := by
        simp [front_at_or_below, hw, hx]
      rw [hfp2]
      simp [List.getLastD_cons, List.replicate_succ]

/--
C3 (amended): in the non-prepend case of the hardware decode callback
(new pts not smaller than the head's), the nodes flushed downstream, in
order, are all nodes of the maximal at-or-below-the-new-pts prefix except
its last one; the new frame is inserted right after that last node (the
first position whose successor pts is greater), and `adjust_max` is
called with -1 once per flushed node and then once with +1.
-/
theorem decode_callback_insert_spec (n w : Int) (ws : List Int)
    (hw : ¬ n < w) :
    decode_callback_insert (w :: ws) n =
      ((front_at_or_below n (w :: ws)).getLastD 0 :: n ::
          (w :: ws).drop (front_at_or_below n (w :: ws)).length,
        (front_at_or_below n (w :: ws)).dropLast,
        List.replicate ((front_at_or_below n (w :: ws)).length - 1) (-1) ++ [1]) := by
  rw [decode_callback_insert, if_neg hw]
  exact decode_cb_walk_spec n ws w hw

/-- Witness for `decode_callback_insert_spec`: inserting pts 3 into
`[1, 2, 4]` flushes `[1]`, yields the list `[2, 3, 4]` and the
`adjust_max` deltas `[-1, 1]`. -/
theorem decode_callback_insert_spec_witness :
    ¬ (3 : Int) < 1 ∧
      decode_callback_insert [1, 2, 4] 3 =
        ((front_at_or_below 3 [1, 2, 4]).getLastD 0 :: 3 ::
            List.drop (front_at_or_below 3 [1, 2, 4]).length [1, 2, 4],
          (front_at_or_below 3 [1, 2, 4]).dropLast,
          List.replicate ((front_at_or_below 3 [1, 2, 4]).length - 1) (-1) ++ [1]) :=
  ⟨by decide, decode_callback_insert_spec 3 1 [2, 4] (by decide)⟩

/--
C4 (counterexample): with a seek to 10 s armed, the frames 5 s then 12 s
arriving from the decoder produce the emissions `[5 s, 12 s]`: the first
frame emitted to the frames queue has canonical ts 5 s, strictly below the
target and not clamped to it — the cached below-target frame is emitted
first, by design.
-/
theorem first_emitted_after_seek_counterexample :
    post_seek_emitted.head?.map AVFrame.pts = some 5000000 ∧
      (5000000 : Int) < 10000000 ∧ (5000000 : Int) ≠ 10000000 := by
  decide

/-- Invariant step for runs of `async_queue_frame` from a freshly armed
seek: the first emitted frame is at or above the target (possibly
clamped onto it), or it is the promoted cached skipped-frame, whose pts is
the canonical ts of the frame cached in the starting state or of one of
the inputs. -/
lemma run_first_emitted_aux (s : Int) (tb : AVRational) :
    ∀ (inputs : List (Option AVFrame)) (d : AsyncDecoder),
      d.st_timebase = tb → d.seek_request = s → 0 < s →
      (∀ c, d.tmp_frame = some c → canonical_ts d c < s) →
      ∀ f, (run_async_queue d inputs).2.head? = some f →
        s ≤ f.pts ∨
          f.pts < s ∧
            ((∃ c, d.tmp_frame = some c ∧ f.pts = canonical_ts d c) ∨
              ∃ g, some g ∈ inputs ∧ f.pts = canonical_ts d g) := by
  intro inputs
  induction inputs with
  | nil =>
    intro d htb hseek hs hinv f hf
    simp [run_async_queue] at hf
  | cons x xs ih =>
    intro d htb hseek hs hinv f hf
    have harm : d.seek_request ≠ AV_NOPTS_VALUE := hseek ▸ ne_nopts_of_pos hs
    match x with
    | none =>
      cases htmp : d.tmp_frame with
      | some c =>
        rw [run_async_queue] at hf
        simp only [async_queue_frame, htmp, queue_cached_frame] at hf
        simp only [List.cons_append, List.head?_cons, Option.some.injEq] at hf
        right
        refine ⟨?_, Or.inl ⟨c, rfl, by rw [← hf]⟩⟩
        rw [← hf]
        exact hinv c htmp
      | none =>
        rw [run_async_queue] at hf
        simp only [async_queue_frame, htmp] at hf
        simp only [List.nil_append] at hf
        rcases ih d htb hseek hs hinv f hf with h | ⟨hlt, h | h⟩
        · exact Or.inl h
        · rcases h with ⟨c, hc, _⟩
          rw [htmp] at hc
          exact absurd hc (by simp)
        · rcases h with ⟨g, hg, hpts⟩
          exact Or.inr ⟨hlt, Or.inr ⟨g, List.mem_cons_of_mem _ hg, hpts⟩⟩
    | some g =>
      by_cases hlt : canonical_ts d g < s
      · -- the frame is below the target: it is cached and nothing emitted
        rw [run_async_queue] at hf
        rw [async_queue_frame_skip_caches d g harm (hseek ▸ hlt)] at hf
        simp only [List.nil_append] at hf
        rcases ih { d with tmp_frame := some g } htb hseek hs
            (by
              intro c hc
              simp only [Option.some.injEq] at hc
              rw [← hc]
              exact hlt) f hf with h | ⟨hlt', h | h⟩
        · exact Or.inl h
        · rcases h with ⟨c, hc, hpts⟩
          simp only [Option.some.injEq] at hc
          rw [← hc] at hpts
          exact Or.inr ⟨hlt', Or.inr ⟨g, List.mem_cons_self _ _, hpts⟩⟩
        · rcases h with ⟨g', hg', hpts⟩
          exact Or.inr ⟨hlt', Or.inr ⟨g', List.mem_cons_of_mem _ hg', hpts⟩⟩
      · -- the frame is at or above the target: something is emitted now
        have hnlt : ¬ (d.seek_request ≠ AV_NOPTS_VALUE ∧
            canonical_ts d g < d.seek_request) := by
          rw [hseek]
          exact fun h => hlt h.2
        cases htmp : d.tmp_frame with
        | some c =>
          rw [run_async_queue] at hf
          simp only [async_queue_frame, if_neg hnlt, htmp, queue_cached_frame] at hf
          simp only [List.cons_append, List.head?_cons, Option.some.injEq] at hf
          right
          refine ⟨?_, Or.inl ⟨c, rfl, by rw [← hf]⟩⟩
          rw [← hf]
          exact hinv c htmp
        | none =>
          rw [run_async_queue] at hf
          simp only [async_queue_frame, if_neg hnlt, htmp] at hf
          simp only [List.cons_append, List.head?_cons, Option.some.injEq] at hf
          left
          rw [← hf]
          split
          · exact hseek ▸ le_refl d.seek_request
          · exact not_lt.mp hlt

/--
C4 (amended): after a seek to target `s > 0` is processed by the decoder
worker (leaving `seek_request = s` and no cached frame), the first frame
emitted to the frames queue either has canonical ts ≥ s (clamped down to
`s` when it overshoots), or it is the promoted cached skipped-frame: a
frame with ts < s whose pts is the genuine canonical ts of one of the
frames that arrived (below the target) after the seek.
-/
theorem first_emitted_after_seek (s : Int) (tb : AVRational)
    (inputs : List (Option AVFrame)) (hs : 0 < s) :
    ∀ f, (run_async_queue ⟨s, none, tb⟩ inputs).2.head? = some f →
      s ≤ f.pts ∨
        f.pts < s ∧ ∃ g, some g ∈ inputs ∧
          f.pts = canonical_ts ⟨s, none, tb⟩ g := by
  intro f hf
  rcases run_first_emitted_aux s tb inputs ⟨s, none, tb⟩ rfl rfl hs
      (by intro c hc; cases hc) f hf with h | ⟨hlt, h | h⟩
  · exact Or.inl h
  · rcases h with ⟨c, hc, _⟩
    cases hc
  · exact Or.inr ⟨hlt, h⟩

/-- Witness for `first_emitted_after_seek`: with a seek to 10 s armed, a
single frame at 12 s is emitted clamped to 10 s, and 10 ≤ 10 holds. -/
theorem first_emitted_after_seek_witness :
    (10000000 : Int) ≤ AVFrame.pts ⟨10000000, 12000000⟩ ∨
      AVFrame.pts ⟨10000000, 12000000⟩ < 10000000 ∧
        ∃ g, some g ∈ [some (⟨12000000, 12000000⟩ : AVFrame)] ∧
          AVFrame.pts ⟨10000000, 12000000⟩ =
            canonical_ts ⟨10000000, none, ⟨1, 1000000⟩⟩ g :=
  first_emitted_after_seek 10000000 ⟨1, 1000000⟩
    [some ⟨12000000, 12000000⟩] (by decide) ⟨10000000, 12000000⟩ (by decide)

/--
C5 (counterexample): the governor invariant does not hold at every mutex
release. `bufcount_update_max` adds its delta unconditionally, so the
single operation `adjust_max(-5)` from the freshly created governor
(refcount 1, refmax 4) releases the mutex in the state
(refcount 1, refmax -1), where `refcount ≤ refmax` fails.
-/
theorem bufcount_invariant_counterexample :
    bufcount_invariant bufcount_create ∧
      bufcount_update_max bufcount_create (-5) = ⟨1, -1⟩ ∧
      ¬ bufcount_invariant (bufcount_update_max bufcount_create (-5)) := by
  refine ⟨by decide, rfl, ?_⟩
  decide

/-- The wait loop of `bufcount_update_ref` only terminates in a state
where `refcount < refmax`. -/
lemma bufcount_wait_loop_exit :
    ∀ (env : List (Int × Int)) (b b' : BufcountState),
      bufcount_wait_loop b env = some b' → b'.refcount < b'.refmax := by
  intro env
  induction env with
  | nil =>
    intro b b' h
    rw [bufcount_wait_loop] at h
    split at h
    · cases h
      assumption
    · cases h
  | cons e es ih =>
    intro b b' h
    rw [bufcount_wait_loop] at h
    split at h
    · cases h
      assumption
    · exact ih _ b' h

/--
C5 (amended): the invariant `0 ≤ refcount ≤ refmax` does not hold at every
mutex-release boundary (`bufcount_update_max` applies any delta
unconditionally — see the counterexample); what the code does guarantee is
the blocking half: an `adjust_ref` with positive delta applies its
increment and then waits while `refcount ≥ refmax`, so whenever it
completes without destroying the governor, the state it releases the mutex
in satisfies `refcount < refmax`, i.e. `refcount ≤ refmax - 1`.
-/
theorem bufcount_update_ref_blocks (b : BufcountState) (n : Int)
    (env : List (Int × Int)) (b' : BufcountState) (hn : 0 < n)
    (hdone : bufcount_update_ref b n env = .done b') :
    b'.refcount < b'.refmax := by
  rw [bufcount_update_ref] at hdone
  simp only [if_pos hn] at hdone
  rcases hw : bufcount_wait_loop { b with refcount := b.refcount + n } env with _ | b2
  · rw [hw] at hdone
    cases hdone
  · rw [hw] at hdone
    simp only at hdone
    split at hdone
    · cases hdone
    · cases hdone
      exact bufcount_wait_loop_exit env _ b' hw

/-- Witness for `bufcount_update_ref_blocks`: `adjust_ref(+1)` from
(refcount 1, refmax 4) completes immediately in (2, 4), and 2 < 4. -/
theorem bufcount_update_ref_blocks_witness :
    BufcountState.refcount ⟨2, 4⟩ < BufcountState.refmax ⟨2, 4⟩ :=
  bufcount_update_ref_blocks ⟨1, 4⟩ 1 [] ⟨2, 4⟩ (by decide) (by decide)

/--
C6: in a reader-loop iteration with a pending seek (`request_seek ≥ 0`),
the seek message is pushed into the packet queue first; the source seek
callback, when invoked, comes strictly after it; and `pull_packet`, when
reached, comes after both.
-/
theorem reader_iteration_seek_order (inp : RdIterInput)
    (hseek : inp.request_seek ≥ 0) :
    (reader_iteration inp).1.head? = some (RdEvent.evPushSeekMsg inp.request_seek) ∧
    (RdEvent.evSeekCb inp.request_seek ∈ (reader_iteration inp).1 →
      (reader_iteration inp).1.take 2 =
        [RdEvent.evPushSeekMsg inp.request_seek, RdEvent.evSeekCb inp.request_seek]) ∧
    (RdEvent.evPullPacket ∈ (reader_iteration inp).1 →
      (reader_iteration inp).1.take 3 =
        [RdEvent.evPushSeekMsg inp.request_seek, RdEvent.evSeekCb inp.request_seek,
          RdEvent.evPullPacket]) := by
  rw [reader_iteration]
  rw [if_pos hseek]
  by_cases h1 : inp.push_seek_ret < 0
  · simp [h1]
  · by_cases h2 : inp.seek_cb_ret < 0
    · simp [h1, h2]
    · simp only [if_neg h1, if_neg h2, reader_pull_section]
      by_cases h3 : inp.pull_ret = AVERROR_EAGAIN
      · simp [h3]
      · by_cases h4 : inp.pull_ret < 0
        · simp [h3, h4]
        · by_cases h5 : inp.memdup_ok
          · simp [h3, h4, h5]
          · simp [h3, h4, h5]

/-- Witness for `reader_iteration_seek_order`: a successful iteration with
pending seek 5 performs push-seek, seek-callback, pull, send in that
order. -/
theorem reader_iteration_seek_order_witness :
    (reader_iteration ⟨5, 0, 0, 1, true, 0⟩).1.take 3 =
      [RdEvent.evPushSeekMsg 5, RdEvent.evSeekCb 5, RdEvent.evPullPacket] :=
  (reader_iteration_seek_order ⟨5, 0, 0, 1, true, 0⟩ (by decide)).2.2 (by decide)

/-- One packet-queue operation never increases the seek-marker count above
one. -/
lemma seek_count_apply (q : List PktMsg) (op : PktOp)
    (h : seek_count q ≤ 1) : seek_count (pkt_apply q op) ≤ 1 := by
  match op with
  | .opSendPacket id =>
    simp only [pkt_apply, seek_count, List.filter_append]
    simpa [seek_count] using h
  | .opPushSeek ts =>
    simp [pkt_apply, seek_count]
  | .opRecv =>
    refine le_trans ?_ h
    match q with
    | [] => simp [pkt_apply]
    | m :: rest =>
      simp only [pkt_apply, List.tail_cons, seek_count, List.filter]
      split
      · exact Nat.le_succ _
      · exact le_refl _

/--
C7: under any sequence of packet-queue operations (reader packet sends,
reader seek pushes — which flush the queue first — and decoder receives)
the queue holds at most one seek marker, so there is at most one
outstanding Seek between any two packets; and immediately after
`push_seek_message` succeeds, the seek it enqueued is the only message in
the queue at all.
-/
theorem pkt_queue_at_most_one_seek (ops : List PktOp) :
    seek_count (pkt_run ops) ≤ 1 ∧
      ∀ ts, pkt_run (ops ++ [PktOp.opPushSeek ts]) = [PktMsg.msgSeek ts] := by
  constructor
  · have haux : ∀ (l : List PktOp) (q : List PktMsg), seek_count q ≤ 1 →
        seek_count (List.foldl pkt_apply q l) ≤ 1 := by
      intro l
      induction l with
      | nil => intro q h; exact h
      | cons op rest ih =>
        intro q h
        exact ih (pkt_apply q op) (seek_count_apply q op h)
    exact haux ops [] (by simp [seek_count])
  · intro ts
    rw [pkt_run, List.foldl_append]
    rfl

/--
C8: when the asynchronous decode submission fails in `vtdec_push_packet`
(nonzero status from `VTDecompressionSessionDecodeFrame` on a non-empty
packet with a successfully built sample), the in-flight counter is reset
to zero under the decoder's mutex, the condition variable is signalled
(twice in total for the call: once when the counter was incremented, once
at the reset), the function returns `AVERROR_EXTERNAL`, and the sample was
submitted exactly once — the packet is not re-sent.
-/
theorem vtdec_push_packet_failure (vt : VtState) (pkt_size status : Int)
    (hsz : pkt_size ≠ 0) (hst : status ≠ 0) :
    vtdec_push_packet vt pkt_size true status = (⟨0⟩, AVERROR_EXTERNAL, ⟨1, 2⟩) := by
  simp [vtdec_push_packet, hsz, hst]

/-- Witness for `vtdec_push_packet_failure`: a failed submission of a
100-byte packet with two packets already in flight. -/
theorem vtdec_push_packet_failure_witness :
    vtdec_push_packet ⟨2⟩ 100 true (-1) = (⟨0⟩, AVERROR_EXTERNAL, ⟨1, 2⟩) :=
  vtdec_push_packet_failure ⟨2⟩ 100 (-1) (by decide) (by decide)

/-- Delivery from a non-empty sink always yields a frame (the adapter
keeps the last at-or-before frame, and on pure overshoot it delivers the
overshooting frame itself). -/
lemma get_frame_deliver_isSome (t : Int) :
    ∀ (source : List AVFrame) (prev : Option AVFrame),
      source ≠ [] ∨ prev.isSome = true →
      (get_frame_deliver t prev source).isSome = true := by
  intro source
  induction source with
  | nil =>
    intro prev h
    rcases h with h | h
    · exact absurd rfl h
    · simpa [get_frame_deliver] using h
  | cons f fs ih =>
    intro prev h
    rw [get_frame_deliver]
    split
    · simp
    · exact ih (some f) (Or.inr rfl)

/--
C9: `async_start` on an already-started context returns 0 and leaves the
state unchanged, `async_stop` on a non-started context returns 0 and
leaves the state unchanged; hence `start; start` is equivalent to `start`
and `stop; stop` to `stop`, and `get_frame` after a redundant stop still
yields a non-null frame (the media-level adapter restarts and re-seeks,
and delivery from a non-empty stream succeeds).
-/
theorem async_lifecycle_idempotent :
    (∀ (a : AsyncCtx) (skip : Int), a.started = true → async_start a skip = (a, 0)) ∧
    (∀ a : AsyncCtx, a.started = false → async_stop a = (a, 0)) ∧
    (∀ (a : AsyncCtx) (skip : Int),
      async_start (async_start a skip).1 skip = ((async_start a skip).1, 0)) ∧
    (∀ a : AsyncCtx, async_stop (async_stop a).1 = ((async_stop a).1, 0)) ∧
    (∀ (a : AsyncCtx) (source : List AVFrame) (t : Int), source ≠ [] →
      (nmd_get_frame (async_stop (async_stop a).1).1 source t).2.isSome = true) := by
  refine ⟨?_, ?_, ?_, ?_, ?_⟩
  · intro a skip h
    simp [async_start, h]
  · intro a h
    simp [async_stop, h]
  · intro a skip
    by_cases h : a.started
    · simp [async_start, h]
    · simp [async_start, async_reader_seek, h]
  · intro a
    by_cases h : a.started
    · simp [async_stop, reset_reader, h]
    · simp [async_stop, h]
  · intro a source t hsrc
    exact get_frame_deliver_isSome t source none (Or.inl hsrc)

/-- Witness for `async_lifecycle_idempotent`: a started context with a
pending seek is untouched by a second `start`, a stopped one by a second
`stop`, and `get_frame(5)` after two stops on a one-frame stream yields a
frame. -/
theorem async_lifecycle_idempotent_witness :
    async_start ⟨true, 7⟩ 3 = (⟨true, 7⟩, 0) ∧
      async_stop ⟨false, -1⟩ = (⟨false, -1⟩, 0) ∧
      (nmd_get_frame (async_stop (async_stop ⟨true, 7⟩).1).1 [⟨0, 0⟩] 5).2.isSome = true :=
  ⟨async_lifecycle_idempotent.1 ⟨true, 7⟩ 3 rfl,
    async_lifecycle_idempotent.2.1 ⟨false, -1⟩ rfl,
    async_lifecycle_idempotent.2.2.2.2 ⟨true, 7⟩ [⟨0, 0⟩] 5 (by simp)⟩

/--
C10: when the blocking receive inside `async_pop_frame` fails with any
error (EOF included), the function returns NULL and installs that same
error as the sink queue's send-side latch; every subsequent send to the
sink then fails with that error, so the producer side is permanently
stopped as well.
-/
theorem async_pop_frame_latches_send (q : FrameQueue) (e : Int)
    (hempty : q.items = []) (herr : q.err_recv = some e) :
    async_pop_frame q = some (none, { q with err_send := some e }) ∧
      ∀ f, queue_send { q with err_send := some e } f = .serr e := by
  constructor
  · simp [async_pop_frame, queue_recv, queue_set_err_send, hempty, herr]
  · intro f
    rw [queue_send]

/-- Witness for `async_pop_frame_latches_send`: popping from an empty sink
whose receive side is latched with EOF returns NULL, latches EOF on the
send side, and a subsequent send fails with EOF. -/
theorem async_pop_frame_latches_send_witness :
    async_pop_frame ⟨[], 3, none, some AVERROR_EOF⟩ =
        some (none, ⟨[], 3, some AVERROR_EOF, some AVERROR_EOF⟩) ∧
      queue_send ⟨[], 3, some AVERROR_EOF, some AVERROR_EOF⟩ ⟨0, 0⟩ =
        .serr AVERROR_EOF :=
  ⟨(async_pop_frame_latches_send ⟨[], 3, none, some AVERROR_EOF⟩ AVERROR_EOF rfl rfl).1,
    (async_pop_frame_latches_send ⟨[], 3, none, some AVERROR_EOF⟩ AVERROR_EOF rfl rfl).2 ⟨0, 0⟩⟩

end NopeMedia
